import Mathlib

/-!
Verification of the CFG canonicalization and comparison engine of the
rubric-flow-ai repository, together with the client API helpers and the
pseudocode-evaluation edge function that are present in the frontend
sources.  The scoring, canonicalization, duplicate-detection and
comparison-orchestration logic lives in the backend (not shipped with the
frontend sources); those parts are modelled from the specification, as
marked on each definition.  The UI constants, the client API helpers and
the edge-function handler are translated directly from the TypeScript
sources.
-/

namespace RubricFlow

/-- Kinds of CFG nodes, from the spec data model (§3):
start, end, process, decision, input, output. -/
inductive NodeKind where
  | start
  | stop
  | process
  | decision
  | input
  | output
deriving DecidableEq, Repr

/-- A CFG node: id unique within the graph, kind, free-text label.
Modelled from the spec: the GraphModel component is backend code absent
from the frontend sources. -/
structure Node where
  id : Nat
  kind : NodeKind
  label : String
deriving DecidableEq, Repr

/-- A directed edge with an optional label ("yes"/"no" for decision
branches).  Modelled from the spec (§3). -/
structure Edge where
  src : Nat
  tgt : Nat
  label : Option String
deriving DecidableEq, Repr

/-- A control-flow graph: a list of nodes and a list of edges (directed
multigraph).  Modelled from the spec (§3). -/
structure ControlFlowGraph where
  nodes : List Node
  edges : List Edge
deriving DecidableEq, Repr

abbrev CFG := ControlFlowGraph

/-- Look up a node by id. -/
def lookupNode (g : CFG) (i : Nat) : Option Node :=
  g.nodes.find? (fun n => n.id == i)

def isProcessKind : NodeKind → Bool
  | .process => true
  | _ => false

def isDecisionKind : NodeKind → Bool
  | .decision => true
  | _ => false

def isStartKind : NodeKind → Bool
  | .start => true
  | _ => false

def isStopKind : NodeKind → Bool
  | .stop => true
  | _ => false

/-- Whether node `i` exists in `g` and is a process node. -/
def isProcess (g : CFG) (i : Nat) : Bool :=
  match lookupNode g i with
  | some n => isProcessKind n.kind
  | none => false

/-- Whether node `i` exists in `g` and is a decision node. -/
def isDecision (g : CFG) (i : Nat) : Bool :=
  match lookupNode g i with
  | some n => isDecisionKind n.kind
  | none => false

/-- Label of node `i` (empty when absent). -/
def labelOf (g : CFG) (i : Nat) : String :=
  match lookupNode g i with
  | some n => n.label
  | none => ""

/-- Out-degree of node id `s` (number of edges leaving `s`). -/
def outDeg (g : CFG) (s : Nat) : Nat :=
  (g.edges.filter (fun e => e.src == s)).length

/-- In-degree of node id `t`. -/
def inDeg (g : CFG) (t : Nat) : Nat :=
  (g.edges.filter (fun e => e.tgt == t)).length

/-- One breadth step of reachability: add all successors of the set. -/
def reachStep (g : CFG) (s : List Nat) : List Nat :=
  (s ++ (g.edges.filter (fun e => s.contains e.src)).map (fun e => e.tgt)).dedup

/-- Iterate the reachability step `n` times. -/
def reachIter (g : CFG) : Nat → List Nat → List Nat
  | 0, s => s
  | n + 1, s => reachIter g n (reachStep g s)

/-- Ids of the start nodes of `g`. -/
def startIds (g : CFG) : List Nat :=
  (g.nodes.filter (fun n => isStartKind n.kind)).map (fun n => n.id)

/-- Ids reachable from the start nodes (fixpoint reached within
`g.nodes.length` steps on well-formed graphs). -/
def reachableIds (g : CFG) : List Nat :=
  reachIter g g.nodes.length (startIds g)

/-- Edge labels leaving node id `s`. -/
def outLabels (g : CFG) (s : Nat) : List (Option String) :=
  (g.edges.filter (fun e => e.src == s)).map (fun e => e.label)

/-- GraphModel validation, modelled from the spec (§3/§4.1): exactly one
start node with in-degree 0 reaching all nodes, at least one end node
(out-degree 0 terminal), every decision node has ≥ 2 outgoing edges with
distinct labels, every non-terminal node has ≥ 1 outgoing edge. -/
def validate (g : CFG) : Bool :=
  match g.nodes.filter (fun n => isStartKind n.kind) with
  | [s] =>
    inDeg g s.id == 0 &&
    g.nodes.all (fun n => (reachableIds g).contains n.id) &&
    g.nodes.any (fun n => isStopKind n.kind) &&
    g.nodes.all (fun n =>
      !isDecisionKind n.kind ||
      (decide (2 ≤ outDeg g n.id) && (outLabels g n.id).Nodup)) &&
    g.nodes.all (fun n => isStopKind n.kind || decide (1 ≤ outDeg g n.id))
  | _ => false

/-! ### Canonicalizer

Modelled from the spec (§4.2): the repository performs canonicalization in
its backend through a generative-model call; the deterministic algorithm
below follows the spec's three steps (chain merging, label normalization,
decision normalization). -/

/-- Whether the edge `s → t` is contractible for chain merging: both
endpoints are distinct process nodes and the run condition holds (single
out-edge at `s`, single in-edge at `t`). -/
def contractPair (g : CFG) (s t : Nat) : Bool :=
  !(s == t) && isProcess g s && isProcess g t &&
    outDeg g s == 1 && inDeg g t == 1

/-- First contractible edge of the graph, if any. -/
def findContractible (g : CFG) : Option Edge :=
  g.edges.find? (fun e => contractPair g e.src e.tgt)

/-- Contract the edge `u → v`: drop node `v`, drop the `u → v` edge, and
redirect edges leaving `v` so they leave `u`. -/
def contract (g : CFG) (u v : Nat) : CFG :=
  { nodes := g.nodes.filter (fun n => !(n.id == v)),
    edges := (g.edges.filter (fun e => !(e.src == u && e.tgt == v))).map
      (fun e => if e.src == v then { e with src := u } else e) }

/-- Chain merging worker: contract contractible edges while fuel lasts. -/
def mergeChainsFuel : Nat → CFG → CFG
  | 0, g => g
  | n + 1, g =>
    match findContractible g with
    | none => g
    | some e => mergeChainsFuel n (contract g e.src e.tgt)

/-- Chain merging: every maximal run of process nodes with single in/out
edges is merged into one node.  `g.nodes.length` units of fuel suffice
because each contraction removes a node. -/
def mergeChains (g : CFG) : CFG :=
  mergeChainsFuel g.nodes.length g

/-- Controlled role vocabulary for node labels, per spec step 2. -/
def roleLabel : NodeKind → String
  | .start => "start"
  | .stop => "end"
  | .process => "processing step"
  | .decision => "condition-check"
  | .input => "input"
  | .output => "output"

/-- Label normalization: replace every node label by its role label. -/
def normalizeLabels (g : CFG) : CFG :=
  { g with nodes := g.nodes.map (fun n => { n with label := roleLabel n.kind }) }

/-- Whether some node of `ns` with id `i` is a decision node. -/
def isDecisionIn (ns : List Node) (i : Nat) : Bool :=
  match ns.find? (fun n => n.id == i) with
  | some n => isDecisionKind n.kind
  | none => false

/-- Number of edges of `es` leaving id `s`. -/
def outCount (es : List Edge) (s : Nat) : Nat :=
  (es.filter (fun e => e.src == s)).length

/-- Label of the `rank`-th branch of a decision with `cnt` outgoing edges:
`yes`/`no` for a two-way decision, `case-n` otherwise (spec step 3). -/
def branchLabel (cnt rank : Nat) : String :=
  if cnt == 2 then (if rank == 0 then "yes" else "no")
  else "case-" ++ toString rank

/-- Relabel the edges in order, tracking the sources already seen so that
each decision's outgoing edges are numbered in list order.  Non-decision
edges lose their label. -/
def relabelEdgesGo (ns : List Node) (all : List Edge) (seen : List Nat) :
    List Edge → List Edge
  | [] => []
  | e :: rest =>
    let newLabel : Option String :=
      if isDecisionIn ns e.src then
        some (branchLabel (outCount all e.src)
          ((seen.filter (fun s => s == e.src)).length))
      else none
    { e with label := newLabel } :: relabelEdgesGo ns all (seen ++ [e.src]) rest

/-- Decision normalization: order and relabel every decision node's
outgoing edges from the closed set {yes, no} / {case-n}. -/
def normalizeDecisions (g : CFG) : CFG :=
  { g with edges := relabelEdgesGo g.nodes g.edges [] g.edges }

/-- Canonicalization pipeline, per spec §4.2: chain merging, then label
normalization, then decision normalization. -/
def canonicalize (g : CFG) : CFG :=
  normalizeDecisions (normalizeLabels (mergeChains g))

/-! ### SimilarityScorer

Modelled from the spec (§4.3): the repository's scoring is performed in
its backend; these definitions follow the spec's sub-score formulas,
weights 40/30/20/10, and its empty-candidate edge case. -/

/-- Multiset of (canonical) node labels of a graph. -/
def nodeLabels (g : CFG) : Multiset String :=
  (g.nodes.map (fun n => n.label) : List String)

/-- Number of nodes matched by role-label equality (multiset
intersection), the "exact matches are free" alignment of the spec. -/
def matchedCount (a b : CFG) : Nat :=
  (nodeLabels a ∩ nodeLabels b).card

/-- Edit cost between two graphs: unmatched candidate nodes are deletions,
unmatched reference nodes are insertions. -/
def editCost (a b : CFG) : Nat :=
  (a.nodes.length - matchedCount a b) + (b.nodes.length - matchedCount a b)

/-- Structural similarity (0–40): `40 × (1 − normalized_edit_cost)`,
normalized by reference size and floored at 0. -/
def structuralSub (cand ref : CFG) : ℚ :=
  max 0 (40 * (1 - (editCost cand ref : ℚ) / (ref.nodes.length : ℚ)))

/-- Multiset of decision branches of a graph: pairs of the decision node's
label and the branch's edge label. -/
def branchMultiset (g : CFG) : Multiset (String × Option String) :=
  ((g.edges.filter (fun e => isDecision g e.src)).map
    (fun e => (labelOf g e.src, e.label)) : List (String × Option String))

/-- Number of reference decision branches. -/
def branchesTotal (ref : CFG) : Nat :=
  (branchMultiset ref).card

/-- Reference branches with a corresponding branch in the candidate. -/
def branchesCovered (cand ref : CFG) : Nat :=
  (branchMultiset ref ∩ branchMultiset cand).card

/-- Control-flow coverage (0–30): `30 × covered/total`; with no reference
branches everything is trivially covered. -/
def coverageSub (cand ref : CFG) : ℚ :=
  if branchesTotal ref = 0 then 30
  else 30 * (branchesCovered cand ref : ℚ) / (branchesTotal ref : ℚ)

/-- Whether the candidate has an end node. -/
def hasStop (g : CFG) : Bool :=
  g.nodes.any (fun n => isStopKind n.kind)

/-- Whether every node is reachable from the start nodes. -/
def allReachable (g : CFG) : Bool :=
  g.nodes.all (fun n => (reachableIds g).contains n.id)

/-- Multiset of decision-condition labels of a graph. -/
def decisionLabels (g : CFG) : Multiset String :=
  ((g.nodes.filter (fun n => isDecisionKind n.kind)).map
    (fun n => n.label) : List String)

/-- Correctness (0–20): fraction of reference decision conditions with an
equivalent condition in the candidate; any unreachable node or missing
terminal caps the sub-score at 0. -/
def correctnessSub (cand ref : CFG) : ℚ :=
  if allReachable cand && hasStop cand then
    if (decisionLabels ref).card = 0 then 20
    else 20 * ((decisionLabels ref ∩ decisionLabels cand).card : ℚ) /
      ((decisionLabels ref).card : ℚ)
  else 0

/-- Index of the node with id `i` in the node list. -/
def idxOf (g : CFG) (i : Nat) : Nat :=
  g.nodes.findIdx (fun n => n.id == i)

/-- Loop structure estimate: number of back edges (edges whose target does
not come after their source in the node list). -/
def complexityClass (g : CFG) : Nat :=
  (g.edges.filter (fun e => decide (idxOf g e.tgt ≤ idxOf g e.src))).length

/-- Efficiency (0–10): exact complexity-class match scores 10, one class
worse 5, two or more classes worse 0. -/
def efficiencySub (cand ref : CFG) : ℚ :=
  let d := complexityClass cand - complexityClass ref
  if d = 0 then 10 else if d = 1 then 5 else 0

/-- The four weighted sub-scores of an evaluation. -/
structure ScoreBreakdown where
  structural_similarity : ℚ
  control_flow_coverage : ℚ
  correctness : ℚ
  efficiency : ℚ
deriving DecidableEq, Repr

/-- `score(candidate, reference)`: the spec's rubric; an empty candidate
graph gets all sub-scores 0 and raises nothing. -/
def score (cand ref : CFG) : ScoreBreakdown :=
  if cand.nodes.isEmpty then ⟨0, 0, 0, 0⟩
  else
    { structural_similarity := structuralSub cand ref
      control_flow_coverage := coverageSub cand ref
      correctness := correctnessSub cand ref
      efficiency := efficiencySub cand ref }

/-- Total score: the sum of the four sub-scores. -/
def totalScore (b : ScoreBreakdown) : ℚ :=
  b.structural_similarity + b.control_flow_coverage + b.correctness +
    b.efficiency

/-- The breakdown as the list of (criterion key, score, maximum) entries
rendered by the UI. -/
def breakdownEntries (b : ScoreBreakdown) : List (String × ℚ × ℚ) :=
  [("structural_similarity", b.structural_similarity, 40),
   ("control_flow_coverage", b.control_flow_coverage, 30),
   ("correctness", b.correctness, 20),
   ("efficiency", b.efficiency, 10)]

/-- Per-criterion denominator used by the UI, translated from
`SolutionEvaluator.tsx` (the nested conditional on the breakdown key). -/
def uiDenominator (key : String) : ℚ :=
  if key == "structural_similarity" then 40
  else if key == "control_flow_coverage" then 30
  else if key == "correctness" then 20
  else 10

/-! ### ComparisonOrchestrator

Modelled from the spec (§4.5): the orchestrator runs in the backend; the
winner rule (strictly higher aggregate, tie within an epsilon of 2) and
the no-reference symmetric structural fallback follow the spec's words.
The `handleEvaluate` guard sequence is translated from
`SolutionEvaluator.tsx`. -/

/-- Winner designation of a comparison. -/
inductive Winner where
  | solution1
  | solution2
  | tie
deriving DecidableEq, Repr

/-- Role swap of a winner designation. -/
def flipWinner : Winner → Winner
  | .solution1 => .solution2
  | .solution2 => .solution1
  | .tie => .tie

/-- Result of comparing two solutions. -/
structure ComparisonResult where
  solution1_score : ℚ
  solution2_score : ℚ
  winner : Winner
deriving DecidableEq, Repr

/-- Symmetric structural similarity used when no reference exists:
normalized by the larger of the two sizes instead of the reference size. -/
def symStructural (a b : CFG) : ℚ :=
  max 0 (40 * (1 - (editCost a b : ℚ) / ((max a.nodes.length b.nodes.length : Nat) : ℚ)))

/-- Aggregate score of one solution inside a comparison: rubric total
against the reference when one exists, otherwise symmetric structural
similarity against the other solution. -/
def aggregate (ref : Option CFG) (own other : CFG) : ℚ :=
  match ref with
  | some r => totalScore (score own r)
  | none => symStructural own other

/-- Tie epsilon of the winner rule (default 2 points). -/
def epsilon : ℚ := 2

/-- `compareTwoSolutions`: score both solutions and designate the winner
as the strictly higher aggregate, or a tie within `epsilon`. -/
def compareTwoSolutions (ref : Option CFG) (a b : CFG) : ComparisonResult :=
  let s1 := aggregate ref a b
  let s2 := aggregate ref b a
  { solution1_score := s1
    solution2_score := s2
    winner :=
      if |s1 - s2| ≤ epsilon then .tie
      else if s2 < s1 then .solution1 else .solution2 }

/-- A stored problem record: its canonical ("bottom-line") CFG is optional
until a reference solution is accepted. -/
structure ProblemRec where
  id : Nat
  canonical_cfg : Option CFG
deriving Repr

/-- Errors of the evaluation orchestrator. -/
inductive EvalError where
  | noReference
deriving DecidableEq, Repr

/-- A structured evaluation result. -/
structure EvaluationResult where
  breakdown : ScoreBreakdown
  total : ℚ
deriving DecidableEq, Repr

/-- `evaluateAgainstReference(problem, candidate)`: requires the problem's
canonical CFG to exist, otherwise fails with `NoReferenceError`. -/
def evaluateAgainstReference (p : ProblemRec) (cand : CFG) :
    Except EvalError EvaluationResult :=
  match p.canonical_cfg with
  | none => .error .noReference
  | some r => .ok ⟨score cand r, totalScore (score cand r)⟩

/-- Outcome of the evaluate button handler: an error toast or a POST. -/
inductive EvalUIOutcome where
  | errorToast (msg : String)
  | request (problemId : Nat) (solutionType : String) (content : String)
deriving DecidableEq, Repr

/-- The guard sequence of `handleEvaluate` in `SolutionEvaluator.tsx`:
no problem, then no reference, then empty content, else the POST. -/
def handleEvaluate (problemId : Option Nat) (hasReference : Bool)
    (solutionType pseudocode flowchartImage : String) : EvalUIOutcome :=
  match problemId with
  | none => .errorToast "Please upload a problem first"
  | some pid =>
    if !hasReference then
      .errorToast "No reference solution available for this problem"
    else
      let content := if solutionType == "pseudocode" then pseudocode
        else flowchartImage
      if content.trim.isEmpty then .errorToast "Please provide your solution"
      else .request pid solutionType content

/-! ### DuplicateDetector

Modelled from the spec (§4.4): the detector runs in the backend; the
fuzzy similarity function itself is a parameter (the spec names it only
by example), while the normalization, the exact-hash short-circuit, the
0.85 threshold and the tie-break rule follow the spec's words. -/

/-- A stored problem statement (corpus entry, earliest first). -/
structure ProblemEntry where
  id : Nat
  statement : String
deriving DecidableEq, Repr

/-- Split a character list on whitespace, dropping empty tokens; `acc`
holds the current token reversed. -/
def splitWSGo (acc : List Char) : List Char → List (List Char)
  | [] => if acc.isEmpty then [] else [acc.reverse]
  | c :: cs =>
    if c.isWhitespace then
      if acc.isEmpty then splitWSGo [] cs
      else acc.reverse :: splitWSGo [] cs
    else splitWSGo (c :: acc) cs

/-- Join tokens with single spaces. -/
def joinWords : List (List Char) → List Char
  | [] => []
  | [w] => w
  | w :: ws => w ++ ' ' :: joinWords ws

/-- Text normalization: lower-case and whitespace-normalize. -/
def normalizeText (s : String) : String :=
  ⟨joinWords (splitWSGo [] (s.data.map Char.toLower))⟩

/-- Similarity of a new statement to a stored problem: exact-hash match
after normalization short-circuits to 1, otherwise the fuzzy score. -/
def similarityScore (sim : String → String → ℚ) (stmt : String)
    (p : ProblemEntry) : ℚ :=
  if normalizeText p.statement == normalizeText stmt then 1
  else sim stmt p.statement

/-- The duplicate threshold (85%). -/
def dupThreshold : ℚ := 85 / 100

/-- Keep the better of the current best and a new scored candidate, only
admitting candidates at or above the threshold; a strict comparison keeps
the earliest problem on ties. -/
def pickBest (best : Option (ProblemEntry × ℚ)) (x : ProblemEntry × ℚ) :
    Option (ProblemEntry × ℚ) :=
  if dupThreshold ≤ x.2 then
    match best with
    | none => some x
    | some b => if b.2 < x.2 then some x else some b
  else best

/-- `findSimilar(statement, corpus)`: the highest-scoring stored problem
with similarity ≥ 0.85, ties broken by earliest creation; `none` means
the statement becomes a new problem. -/
def findSimilar (sim : String → String → ℚ) (stmt : String)
    (corpus : List ProblemEntry) : Option (ProblemEntry × ℚ) :=
  (corpus.map (fun p => (p, similarityScore sim stmt p))).foldl pickBest none

/-! ### Client API helpers

Translated from `src/lib/api.ts`: each helper checks the stored token
before issuing any request, and clears the token on a 401 response.  The
model records which endpoint (if any) was requested, the token left in
storage, and the thrown message or success. -/

/-- A server response as seen by the client helpers. -/
structure ApiResponse where
  status : Nat
  ok : Bool
  /-- `errorData.detail` of the parsed error body, when present. -/
  detail : Option String
  statusText : String
deriving DecidableEq, Repr

/-- Observable outcome of one client helper call. -/
structure ApiCallResult where
  /-- Endpoint path of the issued request, or `none` when no HTTP request
  was made. -/
  requested : Option String
  /-- Token left in localStorage after the call. -/
  tokenAfter : Option String
  /-- Thrown message, or success. -/
  outcome : Except String Unit
deriving Repr

/-- The `errorData.detail || "Evaluation failed: …"` fallback of the
source (JavaScript `||` treats the empty string as falsy). -/
def detailOr (detail : Option String) (fallback : String) : String :=
  match detail with
  | some d => if d.isEmpty then fallback else d
  | none => fallback

/-- `evaluateFlowchart` from `src/lib/api.ts`. -/
def evaluateFlowchart (imageBase64 : String) (token : Option String)
    (resp : ApiResponse) : ApiCallResult :=
  match token with
  | none =>
    { requested := none, tokenAfter := none
      outcome := .error "Not authenticated. Please log in." }
  | some t =>
    let _ := imageBase64
    if resp.status == 401 then
      { requested := some "/api/evaluate-flowchart", tokenAfter := none
        outcome := .error "Session expired. Please log in again." }
    else if !resp.ok then
      { requested := some "/api/evaluate-flowchart", tokenAfter := some t
        outcome := .error
          (detailOr resp.detail ("Evaluation failed: " ++ resp.statusText)) }
    else
      { requested := some "/api/evaluate-flowchart", tokenAfter := some t
        outcome := .ok () }

/-- `evaluatePseudocode` from `src/lib/api.ts`. -/
def evaluatePseudocode (code : String) (token : Option String)
    (resp : ApiResponse) : ApiCallResult :=
  match token with
  | none =>
    { requested := none, tokenAfter := none
      outcome := .error "Not authenticated. Please log in." }
  | some t =>
    let _ := code
    if resp.status == 401 then
      { requested := some "/api/evaluate-pseudocode", tokenAfter := none
        outcome := .error "Session expired. Please log in again." }
    else if !resp.ok then
      { requested := some "/api/evaluate-pseudocode", tokenAfter := some t
        outcome := .error
          (detailOr resp.detail ("Evaluation failed: " ++ resp.statusText)) }
    else
      { requested := some "/api/evaluate-pseudocode", tokenAfter := some t
        outcome := .ok () }

/-- `evaluateDocument` from `src/lib/api.ts`. -/
def evaluateDocument (fileBase64 fileType : String) (token : Option String)
    (resp : ApiResponse) : ApiCallResult :=
  match token with
  | none =>
    { requested := none, tokenAfter := none
      outcome := .error "Not authenticated. Please log in." }
  | some t =>
    let _ := (fileBase64, fileType)
    if resp.status == 401 then
      { requested := some "/api/evaluate-document", tokenAfter := none
        outcome := .error "Session expired. Please log in again." }
    else if !resp.ok then
      { requested := some "/api/evaluate-document", tokenAfter := some t
        outcome := .error
          (detailOr resp.detail ("Evaluation failed: " ++ resp.statusText)) }
    else
      { requested := some "/api/evaluate-document", tokenAfter := some t
        outcome := .ok () }

/-- A solution payload of `compareSolutions`. -/
structure SolutionPayload where
  solType : String
  content : String
deriving DecidableEq, Repr

/-- `compareSolutions` from `src/lib/api.ts`. -/
def compareSolutionsApi (problemStatement : String)
    (solution1 solution2 : SolutionPayload) (token : Option String)
    (resp : ApiResponse) : ApiCallResult :=
  match token with
  | none =>
    { requested := none, tokenAfter := none
      outcome := .error "Not authenticated. Please log in." }
  | some t =>
    let _ := (problemStatement, solution1, solution2)
    if resp.status == 401 then
      { requested := some "/api/compare-solutions", tokenAfter := none
        outcome := .error "Session expired. Please log in again." }
    else if !resp.ok then
      { requested := some "/api/compare-solutions", tokenAfter := some t
        outcome := .error
          (detailOr resp.detail ("Comparison failed: " ++ resp.statusText)) }
    else
      { requested := some "/api/compare-solutions", tokenAfter := some t
        outcome := .ok () }

/-! ### Pseudocode-evaluation edge function

Translated from the Deno `serve` handler of the pseudocode-evaluation
edge function: every non-OPTIONS request runs inside one `try`/`catch`
whose catch produces an HTTP 500 with an `{"error": message}` body. -/

/-- A request to the edge function: method, and the result of
`req.json()` (an error models a thrown body-parse failure). -/
structure PseudoRequest where
  method : String
  body : Except String String
deriving Repr

/-- The AI-gateway response as the handler observes it. -/
structure GatewayResp where
  ok : Bool
  status : Nat
  /-- `choices[0]?.message?.content`, when present. -/
  content : Option String
  /-- Whether JSON extraction from the content succeeds. -/
  parsed : Bool
deriving Repr

/-- The environment of one handler run: the configured API key and the
gateway interaction (an error models a thrown fetch/JSON failure). -/
structure AIWorld where
  apiKey : Option String
  gateway : Except String GatewayResp
deriving Repr

/-- Shape of the HTTP body the handler responds with. -/
inductive RespBody where
  | nullBody
  | resultJson
  | errorJson (msg : String)
deriving DecidableEq, Repr

/-- An HTTP response of the edge function. -/
structure EdgeResponse where
  status : Nat
  body : RespBody
  cors : Bool
deriving DecidableEq, Repr

/-- The CORS preflight response: `new Response(null, {headers: corsHeaders})`. -/
def corsPreflight : EdgeResponse :=
  { status := 200, body := .nullBody, cors := true }

/-- The `try` block of the handler: body parse, key check, gateway call,
status check, content extraction, JSON extraction. -/
def evalPipeline (req : PseudoRequest) (w : AIWorld) : Except String Unit := do
  let _code ← req.body
  let _key ← match w.apiKey with
    | none => Except.error "LOVABLE_API_KEY is not configured"
    | some k => Except.ok k
  let resp ← w.gateway
  if !resp.ok then
    Except.error ("AI Gateway error: " ++ toString resp.status)
  else
    match resp.content with
    | none => Except.error "No content in AI response"
    | some _ =>
      if resp.parsed then Except.ok ()
      else Except.error "Failed to parse evaluation result"

/-- The edge-function request handler: OPTIONS gets the CORS preflight,
everything else gets 200 with the result or 500 with an error body. -/
def pseudocodeHandler (req : PseudoRequest) (w : AIWorld) : EdgeResponse :=
  if req.method == "OPTIONS" then corsPreflight
  else
    match evalPipeline req w with
    | .ok _ => { status := 200, body := .resultJson, cors := true }
    | .error msg => { status := 500, body := .errorJson msg, cors := true }

/-! ### Lemmas: chain merging reaches a normal form -/

theorem findContractible_of_nodes_nil (g : CFG) (h : g.nodes = []) :
    findContractible g = none := by
  apply List.find?_eq_none.mpr
  intro e _
  simp [contractPair, isProcess, lookupNode, h]

theorem contractPair_isProcess_tgt {g : CFG} {s t : Nat}
    (h : contractPair g s t = true) : isProcess g t = true := by
  simp only [contractPair, Bool.and_eq_true] at h
  exact h.1.1.2

theorem contract_nodes_length_lt {g : CFG} {s t : Nat}
    (h : contractPair g s t = true) :
    (contract g s t).nodes.length < g.nodes.length := by
  have hp := contractPair_isProcess_tgt h
  unfold isProcess lookupNode at hp
  cases hl : g.nodes.find? (fun n => n.id == t) with
  | none => rw [hl] at hp; simp at hp
  | some n =>
    have hmem := List.mem_of_find?_eq_some hl
    have hid := List.find?_some hl
    apply List.length_filter_lt_length_iff_exists.mpr
    exact ⟨n, hmem, by simp_all⟩

theorem mergeChainsFuel_of_none (n : Nat) (g : CFG)
    (h : findContractible g = none) : mergeChainsFuel n g = g := by
  cases n <;> simp [mergeChainsFuel, h]

theorem mergeChainsFuel_normal :
    ∀ (n : Nat) (g : CFG), g.nodes.length ≤ n →
      findContractible (mergeChainsFuel n g) = none := by
  intro n
  induction n with
  | zero =>
    intro g hg
    have : g.nodes = [] := List.length_eq_zero.mp (Nat.le_zero.mp hg)
    simpa [mergeChainsFuel] using findContractible_of_nodes_nil g this
  | succ n ih =>
    intro g hg
    unfold mergeChainsFuel
    cases hf : findContractible g with
    | none => exact hf
    | some e =>
      have hf' : g.edges.find? (fun x => contractPair g x.src x.tgt) = some e := hf
      have hp := List.find?_some hf'
      have hlt := contract_nodes_length_lt (g := g) (s := e.src) (t := e.tgt)
        (by simpa using hp)
      exact ih _ (by omega)

theorem mergeChains_normal (g : CFG) :
    findContractible (mergeChains g) = none :=
  mergeChainsFuel_normal _ g le_rfl

/-! ### Lemmas: label and decision normalization are structure-preserving -/

theorem find?_nodes_map_id_preserving (f : Node → Node)
    (hf : ∀ n, (f n).id = n.id) (i : Nat) :
    ∀ ns : List Node,
      (ns.map f).find? (fun n => n.id == i) =
        (ns.find? (fun n => n.id == i)).map f := by
  intro ns
  induction ns with
  | nil => rfl
  | cons a t ih =>
    simp only [List.map_cons, List.find?]
    rw [hf a]
    cases h : (a.id == i) <;> simp [h, ih]

theorem lookupNode_normalizeLabels (g : CFG) (i : Nat) :
    lookupNode (normalizeLabels g) i =
      (lookupNode g i).map (fun n => { n with label := roleLabel n.kind }) :=
  find?_nodes_map_id_preserving
    (fun n => { n with label := roleLabel n.kind }) (fun _ => rfl) i g.nodes

theorem isProcess_normalizeLabels (g : CFG) (i : Nat) :
    isProcess (normalizeLabels g) i = isProcess g i := by
  unfold isProcess
  rw [lookupNode_normalizeLabels]
  cases lookupNode g i <;> rfl

theorem contractPair_normalizeLabels (g : CFG) (s t : Nat) :
    contractPair (normalizeLabels g) s t = contractPair g s t := by
  simp only [contractPair, isProcess_normalizeLabels]
  rfl

theorem findContractible_normalizeLabels (g : CFG) :
    findContractible (normalizeLabels g) = findContractible g := by
  unfold findContractible
  have he : (normalizeLabels g).edges = g.edges := rfl
  rw [he]
  congr 1
  funext e
  exact contractPair_normalizeLabels g e.src e.tgt

theorem relabelGo_map_src_tgt (ns : List Node) (all : List Edge) :
    ∀ (es : List Edge) (seen : List Nat),
      (relabelEdgesGo ns all seen es).map (fun e => (e.src, e.tgt)) =
        es.map (fun e => (e.src, e.tgt)) := by
  intro es
  induction es with
  | nil => intro seen; rfl
  | cons e t ih =>
    intro seen
    simp only [relabelEdgesGo, List.map_cons]
    exact congrArg _ (ih _)

theorem mem_relabelGo (ns : List Node) (all : List Edge) :
    ∀ (es : List Edge) (seen : List Nat) (x : Edge),
      x ∈ relabelEdgesGo ns all seen es →
        ∃ e ∈ es, x.src = e.src ∧ x.tgt = e.tgt := by
  intro es
  induction es with
  | nil => intro seen x hx; simp [relabelEdgesGo] at hx
  | cons e t ih =>
    intro seen x hx
    simp only [relabelEdgesGo, List.mem_cons] at hx
    cases hx with
    | inl h => exact ⟨e, List.mem_cons_self e t, by rw [h]; exact ⟨rfl, rfl⟩⟩
    | inr h =>
      obtain ⟨e', he', hs, ht⟩ := ih _ _ h
      exact ⟨e', List.mem_cons_of_mem _ he', hs, ht⟩

theorem countP_src_of_map_eq {es es2 : List Edge}
    (h : es2.map (fun e => (e.src, e.tgt)) = es.map (fun e => (e.src, e.tgt)))
    (s : Nat) : outCount es2 s = outCount es s := by
  unfold outCount
  rw [← List.countP_eq_length_filter, ← List.countP_eq_length_filter]
  have h2 : (es2.map (fun e => (e.src, e.tgt))).countP (fun pr => pr.1 == s) =
      (es.map (fun e => (e.src, e.tgt))).countP (fun pr => pr.1 == s) := by
    rw [h]
  rwa [List.countP_map, List.countP_map] at h2

theorem countP_tgt_of_map_eq {es es2 : List Edge}
    (h : es2.map (fun e => (e.src, e.tgt)) = es.map (fun e => (e.src, e.tgt)))
    (t : Nat) :
    (es2.filter (fun e => e.tgt == t)).length =
      (es.filter (fun e => e.tgt == t)).length := by
  rw [← List.countP_eq_length_filter, ← List.countP_eq_length_filter]
  have h2 : (es2.map (fun e => (e.src, e.tgt))).countP (fun pr => pr.2 == t) =
      (es.map (fun e => (e.src, e.tgt))).countP (fun pr => pr.2 == t) := by
    rw [h]
  rwa [List.countP_map, List.countP_map] at h2

theorem outDeg_normalizeDecisions (g : CFG) (s : Nat) :
    outDeg (normalizeDecisions g) s = outDeg g s :=
  countP_src_of_map_eq (relabelGo_map_src_tgt g.nodes g.edges g.edges []) s

theorem inDeg_normalizeDecisions (g : CFG) (t : Nat) :
    inDeg (normalizeDecisions g) t = inDeg g t :=
  countP_tgt_of_map_eq (relabelGo_map_src_tgt g.nodes g.edges g.edges []) t

theorem contractPair_normalizeDecisions (g : CFG) (s t : Nat) :
    contractPair (normalizeDecisions g) s t = contractPair g s t := by
  have hn : isProcess (normalizeDecisions g) s = isProcess g s := rfl
  have hn2 : isProcess (normalizeDecisions g) t = isProcess g t := rfl
  simp only [contractPair, hn, hn2, outDeg_normalizeDecisions,
    inDeg_normalizeDecisions]

theorem findContractible_none_normalizeDecisions (g : CFG)
    (h : findContractible g = none) :
    findContractible (normalizeDecisions g) = none := by
  apply List.find?_eq_none.mpr
  intro x hx
  obtain ⟨e, he, hs, ht⟩ := mem_relabelGo g.nodes g.edges g.edges [] x hx
  have hnone := List.find?_eq_none.mp h e he
  rw [contractPair_normalizeDecisions, hs, ht]
  exact hnone

/-! ### Lemmas: each normalization pass is idempotent -/

theorem relabelGo_edges_congr {all all2 : List Edge}
    (hout : ∀ s, outCount all2 s = outCount all s) (ns : List Node) :
    ∀ (es : List Edge) (seen : List Nat),
      relabelEdgesGo ns all2 seen es = relabelEdgesGo ns all seen es := by
  intro es
  induction es with
  | nil => intro seen; rfl
  | cons e t ih =>
    intro seen
    simp only [relabelEdgesGo, hout]
    exact congrArg _ (ih _)

theorem relabelGo_idem (ns : List Node) (all all2 : List Edge)
    (hout : ∀ s, outCount all2 s = outCount all s) :
    ∀ (es : List Edge) (seen : List Nat),
      relabelEdgesGo ns all2 seen (relabelEdgesGo ns all seen es) =
        relabelEdgesGo ns all seen es := by
  intro es
  induction es with
  | nil => intro seen; rfl
  | cons e t ih =>
    intro seen
    simp only [relabelEdgesGo, hout]
    exact congrArg _ (ih _)

theorem normalizeLabels_map_idem (ns : List Node) :
    (ns.map (fun n => { n with label := roleLabel n.kind })).map
        (fun n => { n with label := roleLabel n.kind }) =
      ns.map (fun n => { n with label := roleLabel n.kind }) := by
  rw [List.map_map]
  rfl

theorem cfg_eq_of_fields {a b : CFG} (h1 : a.nodes = b.nodes)
    (h2 : a.edges = b.edges) : a = b := by
  cases a; cases b; cases h1; cases h2; rfl

theorem relabelGo_nodes_map (f : Node → Node) (hid : ∀ n, (f n).id = n.id)
    (hk : ∀ n, (f n).kind = n.kind) (ns : List Node) (all : List Edge) :
    ∀ (es : List Edge) (seen : List Nat),
      relabelEdgesGo (ns.map f) all seen es = relabelEdgesGo ns all seen es := by
  have hdec : ∀ i, isDecisionIn (ns.map f) i = isDecisionIn ns i := by
    intro i
    unfold isDecisionIn
    rw [find?_nodes_map_id_preserving f hid i ns]
    cases ns.find? (fun n => n.id == i) with
    | none => rfl
    | some n => simp [hk n]
  intro es
  induction es with
  | nil => intro seen; rfl
  | cons e t ih =>
    intro seen
    simp only [relabelEdgesGo, hdec]
    exact congrArg _ (ih _)

/-- Canonicalization is idempotent, as literal graph equality (hence in
particular up to relabeling-isomorphism): helper without the validity
hypothesis. -/
theorem canonicalize_canonicalize (g : CFG) :
    canonicalize (canonicalize g) = canonicalize g := by
  have h1 : findContractible (normalizeLabels (mergeChains g)) = none := by
    rw [findContractible_normalizeLabels]
    exact mergeChains_normal g
  have h3 :
      findContractible (normalizeDecisions (normalizeLabels (mergeChains g))) =
        none :=
    findContractible_none_normalizeDecisions _ h1
  -- The second chain-merge pass finds nothing to merge.
  have hM : mergeChains (canonicalize g) = canonicalize g :=
    mergeChainsFuel_of_none _ _ h3
  -- Field equations of the once-canonicalized graph.
  have hznodes : (canonicalize g).nodes =
      (mergeChains g).nodes.map (fun n => { n with label := roleLabel n.kind }) :=
    rfl
  have hlznodes : (normalizeLabels (canonicalize g)).nodes =
      (canonicalize g).nodes := by
    show ((canonicalize g).nodes.map
      (fun n => { n with label := roleLabel n.kind })) = (canonicalize g).nodes
    rw [hznodes]
    exact normalizeLabels_map_idem (mergeChains g).nodes
  have hznodes2 : (canonicalize g).nodes =
      (normalizeLabels (mergeChains g)).nodes := rfl
  have hout : ∀ s, outCount (canonicalize g).edges s =
      outCount (normalizeLabels (mergeChains g)).edges s := fun s =>
    outDeg_normalizeDecisions (normalizeLabels (mergeChains g)) s
  apply cfg_eq_of_fields
  · show (normalizeLabels (mergeChains (canonicalize g))).nodes =
      (canonicalize g).nodes
    rw [hM]
    exact hlznodes
  · show relabelEdgesGo (normalizeLabels (mergeChains (canonicalize g))).nodes
        (normalizeLabels (mergeChains (canonicalize g))).edges []
        (normalizeLabels (mergeChains (canonicalize g))).edges =
      (canonicalize g).edges
    rw [hM]
    have hedgeL : (normalizeLabels (canonicalize g)).edges =
        (canonicalize g).edges := rfl
    rw [hedgeL]
    -- Replace the node list by the one used in the first pass.
    have hns : (normalizeLabels (canonicalize g)).nodes =
        (normalizeLabels (mergeChains g)).nodes := by
      rw [hlznodes]; exact hznodes2
    rw [hns]
    -- The once-relabeled edge list is a fixed point of relabeling.
    have hfix : (canonicalize g).edges =
        relabelEdgesGo (normalizeLabels (mergeChains g)).nodes
          (normalizeLabels (mergeChains g)).edges []
          (normalizeLabels (mergeChains g)).edges := rfl
    calc relabelEdgesGo (normalizeLabels (mergeChains g)).nodes
          (canonicalize g).edges [] (canonicalize g).edges
        = relabelEdgesGo (normalizeLabels (mergeChains g)).nodes
            (normalizeLabels (mergeChains g)).edges []
            (canonicalize g).edges := by
          exact relabelGo_edges_congr hout _ _ []
      _ = (canonicalize g).edges := by
          rw [hfix]
          exact relabelGo_idem _ _ _ (fun _ => rfl) _ []

/-! ### Lemmas: sub-score bounds and identities -/

theorem structuralSub_nonneg (cand ref : CFG) : 0 ≤ structuralSub cand ref :=
  le_max_left 0 _

theorem structuralSub_le (cand ref : CFG) : structuralSub cand ref ≤ 40 := by
  unfold structuralSub
  have hc : (0 : ℚ) ≤ (editCost cand ref : ℚ) / (ref.nodes.length : ℚ) :=
    div_nonneg (Nat.cast_nonneg _) (Nat.cast_nonneg _)
  apply max_le (by norm_num)
  nlinarith

theorem coverageSub_nonneg (cand ref : CFG) : 0 ≤ coverageSub cand ref := by
  unfold coverageSub
  split
  · norm_num
  · positivity

theorem coverageSub_le (cand ref : CFG) : coverageSub cand ref ≤ 30 := by
  unfold coverageSub
  split
  · norm_num
  · rename_i ht
    have hcov : branchesCovered cand ref ≤ branchesTotal ref :=
      Multiset.card_le_card (Multiset.inter_le_left _ _)
    have htpos : (0 : ℚ) < (branchesTotal ref : ℚ) := by
      exact_mod_cast Nat.pos_of_ne_zero ht
    rw [mul_div_assoc]
    have hdiv : (branchesCovered cand ref : ℚ) / (branchesTotal ref : ℚ) ≤ 1 :=
      (div_le_one htpos).mpr (by exact_mod_cast hcov)
    nlinarith

theorem correctnessSub_nonneg (cand ref : CFG) : 0 ≤ correctnessSub cand ref := by
  unfold correctnessSub
  split
  · split
    · norm_num
    · positivity
  · exact le_refl 0

theorem correctnessSub_le (cand ref : CFG) : correctnessSub cand ref ≤ 20 := by
  unfold correctnessSub
  split
  · split
    · norm_num
    · rename_i _ ht
      have hcov : (decisionLabels ref ∩ decisionLabels cand).card ≤
          (decisionLabels ref).card :=
        Multiset.card_le_card (Multiset.inter_le_left _ _)
      have htpos : (0 : ℚ) < ((decisionLabels ref).card : ℚ) := by
        exact_mod_cast Nat.pos_of_ne_zero ht
      rw [mul_div_assoc]
      have hdiv : ((decisionLabels ref ∩ decisionLabels cand).card : ℚ) /
          ((decisionLabels ref).card : ℚ) ≤ 1 :=
        (div_le_one htpos).mpr (by exact_mod_cast hcov)
      nlinarith
  · norm_num

theorem efficiencySub_nonneg (cand ref : CFG) : 0 ≤ efficiencySub cand ref := by
  by_cases h0 : complexityClass cand - complexityClass ref = 0
  · norm_num [efficiencySub, h0]
  · by_cases h1 : complexityClass cand - complexityClass ref = 1 <;>
      norm_num [efficiencySub, h0, h1]

theorem efficiencySub_le (cand ref : CFG) : efficiencySub cand ref ≤ 10 := by
  by_cases h0 : complexityClass cand - complexityClass ref = 0
  · norm_num [efficiencySub, h0]
  · by_cases h1 : complexityClass cand - complexityClass ref = 1 <;>
      norm_num [efficiencySub, h0, h1]

theorem multiset_inter_self {α : Type} [DecidableEq α] (s : Multiset α) :
    s ∩ s = s :=
  le_antisymm (Multiset.inter_le_left s s) (Multiset.le_inter le_rfl le_rfl)

theorem matchedCount_self (g : CFG) : matchedCount g g = g.nodes.length := by
  unfold matchedCount
  rw [multiset_inter_self]
  unfold nodeLabels
  rw [Multiset.coe_card, List.length_map]

theorem editCost_self (g : CFG) : editCost g g = 0 := by
  unfold editCost
  rw [matchedCount_self, Nat.sub_self]

theorem structuralSub_self (g : CFG) : structuralSub g g = 40 := by
  unfold structuralSub
  rw [editCost_self]
  norm_num

theorem coverageSub_self (g : CFG) : coverageSub g g = 30 := by
  unfold coverageSub
  split
  · rfl
  · rename_i ht
    unfold branchesCovered
    rw [multiset_inter_self]
    have h2 : ((branchMultiset g).card : ℚ) ≠ 0 := by
      unfold branchesTotal at ht
      exact_mod_cast ht
    unfold branchesTotal
    rw [mul_div_assoc, div_self h2, mul_one]

/-! ### Lemmas: duplicate detection threshold -/

theorem foldl_pickBest_ge :
    ∀ (l : List (ProblemEntry × ℚ)) (acc : Option (ProblemEntry × ℚ)),
      (∀ p s, acc = some (p, s) → dupThreshold ≤ s) →
      ∀ p s, l.foldl pickBest acc = some (p, s) → dupThreshold ≤ s := by
  intro l
  induction l with
  | nil => intro acc hacc p s h; exact hacc p s h
  | cons x t ih =>
    intro acc hacc p s h
    refine ih (pickBest acc x) ?_ p s h
    intro q r hq
    unfold pickBest at hq
    by_cases hx : dupThreshold ≤ x.2
    · rw [if_pos hx] at hq
      cases acc with
      | none =>
        have hx2 : x = (q, r) := Option.some.inj hq
        have hr : x.2 = r := by rw [hx2]
        exact hr ▸ hx
      | some b =>
        have hq2 : (if b.2 < x.2 then some x else some b) = some (q, r) := hq
        by_cases hb : b.2 < x.2
        · rw [if_pos hb] at hq2
          have hx2 : x = (q, r) := Option.some.inj hq2
          have hr : x.2 = r := by rw [hx2]
          exact hr ▸ hx
        · rw [if_neg hb] at hq2
          have hb2 : b = (q, r) := Option.some.inj hq2
          have hr : b.2 = r := by rw [hb2]
          exact hr ▸ hacc _ _ rfl
    · rw [if_neg hx] at hq
      exact hacc _ _ hq

theorem foldl_pickBest_none :
    ∀ (l : List (ProblemEntry × ℚ)),
      (∀ x ∈ l, x.2 < dupThreshold) → l.foldl pickBest none = none := by
  intro l
  induction l with
  | nil => intro; rfl
  | cons x t ih =>
    intro h
    have hx : x.2 < dupThreshold := h x (List.mem_cons_self x t)
    have hstep : pickBest none x = none := by
      unfold pickBest
      rw [if_neg (not_le.mpr hx)]
    simp only [List.foldl_cons, hstep]
    exact ih (fun y hy => h y (List.mem_cons_of_mem _ hy))

theorem pickBest_some_isSome (b : ProblemEntry × ℚ) (x : ProblemEntry × ℚ) :
    (pickBest (some b) x).isSome = true := by
  unfold pickBest
  by_cases hx : dupThreshold ≤ x.2
  · rw [if_pos hx]
    show (if b.2 < x.2 then some x else some b).isSome = true
    by_cases hb : b.2 < x.2 <;> simp [hb]
  · rw [if_neg hx]
    rfl

theorem foldl_pickBest_some :
    ∀ (l : List (ProblemEntry × ℚ)) (b : ProblemEntry × ℚ),
      (l.foldl pickBest (some b)).isSome = true := by
  intro l
  induction l with
  | nil => intro b; rfl
  | cons x t ih =>
    intro b
    simp only [List.foldl_cons]
    have hs := pickBest_some_isSome b x
    cases hp : pickBest (some b) x with
    | none => rw [hp] at hs; simp at hs
    | some b2 => exact ih b2

theorem foldl_pickBest_isSome :
    ∀ (l : List (ProblemEntry × ℚ)),
      (∃ x ∈ l, dupThreshold ≤ x.2) →
      (l.foldl pickBest none).isSome = true := by
  intro l
  induction l with
  | nil => intro h; obtain ⟨x, hx, _⟩ := h; simp at hx
  | cons x t ih =>
    intro h
    simp only [List.foldl_cons]
    by_cases hx : dupThreshold ≤ x.2
    · have hstep : pickBest none x = some x := by
        unfold pickBest
        rw [if_pos hx]
      rw [hstep]
      exact foldl_pickBest_some t x
    · have hstep : pickBest none x = none := by
        unfold pickBest
        rw [if_neg hx]
      rw [hstep]
      apply ih
      obtain ⟨y, hy, hys⟩ := h
      rcases List.mem_cons.mp hy with rfl | hyt
      · exact absurd hys hx
      · exact ⟨y, hyt, hys⟩

/-! ### Lemmas: comparison symmetry -/

theorem matchedCount_comm (a b : CFG) : matchedCount a b = matchedCount b a := by
  unfold matchedCount
  rw [Multiset.inter_comm]

theorem editCost_comm (a b : CFG) : editCost a b = editCost b a := by
  unfold editCost
  rw [matchedCount_comm]
  omega

theorem symStructural_comm (a b : CFG) : symStructural a b = symStructural b a := by
  unfold symStructural
  rw [editCost_comm, Nat.max_comm]

theorem aggregate_other_irrel (ref : Option CFG) (a b b2 : CFG) :
    ref.isSome = true → aggregate ref a b = aggregate ref a b2 := by
  cases ref with
  | none => intro h; simp at h
  | some r => intro _; rfl

/-! ### Concrete graphs used by the witnesses -/

/-- A small valid CFG (the find-maximum loop of the spec's scenario). -/
def sampleGraph : CFG :=
  { nodes := [⟨0, .start, "begin"⟩, ⟨1, .process, "init max"⟩,
      ⟨2, .process, "advance"⟩, ⟨3, .decision, "more elements"⟩,
      ⟨4, .output, "output max"⟩, ⟨5, .stop, "done"⟩],
    edges := [⟨0, 1, none⟩, ⟨1, 2, none⟩, ⟨2, 3, none⟩,
      ⟨3, 2, some "yes"⟩, ⟨3, 4, some "no"⟩, ⟨4, 5, none⟩] }

/-- A minimal valid CFG: start `→` end. -/
def miniGraph : CFG :=
  { nodes := [⟨0, .start, "s"⟩, ⟨1, .stop, "e"⟩], edges := [⟨0, 1, none⟩] }

/-! ### Claims -/

/-- C1: for every candidate/reference pair, `score` returns a breakdown of
exactly four sub-scores with maxima 40 (structural similarity), 30
(control-flow coverage), 20 (correctness) and 10 (efficiency); the maxima
sum to 100, and the UI's per-criterion denominators are exactly these
constants. -/
theorem score_breakdown_maxima (cand ref : CFG) :
    (breakdownEntries (score cand ref)).length = 4 ∧
    (breakdownEntries (score cand ref)).map (fun x => x.2.2) =
      [40, 30, 20, 10] ∧
    ((breakdownEntries (score cand ref)).map (fun x => x.2.2)).sum = 100 ∧
    (breakdownEntries (score cand ref)).map (fun x => uiDenominator x.1) =
      (breakdownEntries (score cand ref)).map (fun x => x.2.2) := by
  refine ⟨rfl, rfl, ?_, rfl⟩
  show ([(40 : ℚ), 30, 20, 10]).sum = 100
  norm_num

/-- C4: every sub-score of `score` lies in its declared range
([0,40], [0,30], [0,20], [0,10]), and the total equals the sum of the
four sub-scores, hence is at most 100. -/
theorem score_bounds (cand ref : CFG) :
    (0 ≤ (score cand ref).structural_similarity ∧
      (score cand ref).structural_similarity ≤ 40) ∧
    (0 ≤ (score cand ref).control_flow_coverage ∧
      (score cand ref).control_flow_coverage ≤ 30) ∧
    (0 ≤ (score cand ref).correctness ∧ (score cand ref).correctness ≤ 20) ∧
    (0 ≤ (score cand ref).efficiency ∧ (score cand ref).efficiency ≤ 10) ∧
    totalScore (score cand ref) =
      (score cand ref).structural_similarity +
        (score cand ref).control_flow_coverage +
        (score cand ref).correctness + (score cand ref).efficiency ∧
    totalScore (score cand ref) ≤ 100 := by
  by_cases h : cand.nodes.isEmpty = true
  · simp only [score, h, if_true]
    norm_num [totalScore]
  · simp only [score, h, if_false]
    have h1 := structuralSub_nonneg cand ref
    have h2 := structuralSub_le cand ref
    have h3 := coverageSub_nonneg cand ref
    have h4 := coverageSub_le cand ref
    have h5 := correctnessSub_nonneg cand ref
    have h6 := correctnessSub_le cand ref
    have h7 := efficiencySub_nonneg cand ref
    have h8 := efficiencySub_le cand ref
    refine ⟨⟨h1, h2⟩, ⟨h3, h4⟩, ⟨h5, h6⟩, ⟨h7, h8⟩, rfl, ?_⟩
    show structuralSub cand ref + coverageSub cand ref +
      correctnessSub cand ref + efficiencySub cand ref ≤ 100
    linarith

/-- C7: for every reference graph, scoring an empty candidate graph
returns all four sub-scores equal to 0 (and, being a total function,
raises no exception). -/
theorem score_empty_candidate (cand ref : CFG) (h : cand.nodes = []) :
    score cand ref = ⟨0, 0, 0, 0⟩ := by
  simp [score, h]

/-- Witness for C7 at a concrete empty candidate and concrete reference. -/
theorem score_empty_candidate_witness :
    score ⟨[], []⟩ sampleGraph = ⟨0, 0, 0, 0⟩ :=
  score_empty_candidate ⟨[], []⟩ sampleGraph rfl

/-- C8: self-similarity — scoring a valid graph against itself yields
structural similarity exactly 40 and control-flow coverage exactly 30. -/
theorem score_self_similarity (g : CFG) (h : validate g = true) :
    (score g g).structural_similarity = 40 ∧
      (score g g).control_flow_coverage = 30 := by
  cases hn : g.nodes with
  | nil =>
    have hf : validate g = false := by
      unfold validate
      rw [hn]
      rfl
    rw [hf] at h
    simp at h
  | cons a t =>
    have hempty : g.nodes.isEmpty = false := by rw [hn]; rfl
    simp only [score, hempty, Bool.false_eq_true, if_false]
    exact ⟨structuralSub_self g, coverageSub_self g⟩

/-- Witness for C8 at a concrete valid graph. -/
theorem score_self_similarity_witness :
    (score sampleGraph sampleGraph).structural_similarity = 40 ∧
      (score sampleGraph sampleGraph).control_flow_coverage = 30 :=
  score_self_similarity sampleGraph (by decide)

/-- C2: canonicalization is idempotent — canonicalizing an
already-canonical graph makes no further changes (the result is literally
equal, hence isomorphic under the identity relabeling). -/
theorem canonicalize_idempotent (g : CFG) (_h : validate g = true) :
    canonicalize (canonicalize g) = canonicalize g :=
  canonicalize_canonicalize g

/-- Witness for C2 at a concrete valid graph. -/
theorem canonicalize_idempotent_witness :
    canonicalize (canonicalize sampleGraph) = canonicalize sampleGraph :=
  canonicalize_idempotent sampleGraph (by decide)

/-- C3: `findSimilar` returns a match only when the similarity is at
least the 0.85 threshold; when every corpus score is below 0.85 the
statement is treated as a new problem (`none`), and when some score
reaches 0.85 a duplicate is reported — the boundary is strict. -/
theorem findSimilar_threshold (sim : String → String → ℚ) (stmt : String)
    (corpus : List ProblemEntry) :
    (∀ p s, findSimilar sim stmt corpus = some (p, s) → dupThreshold ≤ s) ∧
    ((∀ p ∈ corpus, similarityScore sim stmt p < dupThreshold) →
      findSimilar sim stmt corpus = none) ∧
    ((∃ p ∈ corpus, dupThreshold ≤ similarityScore sim stmt p) →
      (findSimilar sim stmt corpus).isSome = true) := by
  refine ⟨?_, ?_, ?_⟩
  · intro p s h
    exact foldl_pickBest_ge _ none (by intro q r hq; cases hq) p s h
  · intro h
    apply foldl_pickBest_none
    intro x hx
    obtain ⟨p, hp, rfl⟩ := List.mem_map.mp hx
    exact h p hp
  · intro h
    apply foldl_pickBest_isSome
    obtain ⟨p, hp, hs⟩ := h
    exact ⟨(p, similarityScore sim stmt p),
      List.mem_map.mpr ⟨p, hp, rfl⟩, hs⟩

/-- Witness for C3 at the strict boundary: a best fuzzy score of 0.849
yields a new problem, a best fuzzy score of 0.85 yields a duplicate. -/
theorem findSimilar_threshold_witness :
    findSimilar (fun _ _ => (849 / 1000 : ℚ)) "find the maximum element"
        [⟨1, "sort the list ascending"⟩] = none ∧
    (findSimilar (fun _ _ => (85 / 100 : ℚ)) "find the maximum element"
        [⟨1, "sort the list ascending"⟩]).isSome = true := by
  have hne : (normalizeText "sort the list ascending" ==
      normalizeText "find the maximum element") = false := by decide
  constructor
  · apply (findSimilar_threshold _ _ _).2.1
    intro p hp
    rw [List.mem_singleton] at hp
    subst hp
    show similarityScore _ _ _ < dupThreshold
    unfold similarityScore
    rw [hne]
    norm_num [dupThreshold]
  · apply (findSimilar_threshold _ _ _).2.2
    refine ⟨⟨1, "sort the list ascending"⟩, List.mem_singleton.mpr rfl, ?_⟩
    show dupThreshold ≤ similarityScore _ _ _
    unfold similarityScore
    rw [hne]
    norm_num [dupThreshold]

/-- C5: in `compareTwoSolutions` the winner is the solution with the
strictly higher aggregate score except that scores within the epsilon of
2 points give a tie; and swapping the two inputs swaps the
solution1/solution2 roles while flipping the winner designation
accordingly. -/
theorem compareTwoSolutions_winner_spec (ref : Option CFG) (a b : CFG) :
    (|(compareTwoSolutions ref a b).solution1_score -
        (compareTwoSolutions ref a b).solution2_score| ≤ epsilon →
      (compareTwoSolutions ref a b).winner = .tie) ∧
    ((compareTwoSolutions ref a b).solution2_score + epsilon <
        (compareTwoSolutions ref a b).solution1_score →
      (compareTwoSolutions ref a b).winner = .solution1) ∧
    ((compareTwoSolutions ref a b).solution1_score + epsilon <
        (compareTwoSolutions ref a b).solution2_score →
      (compareTwoSolutions ref a b).winner = .solution2) ∧
    (compareTwoSolutions ref b a).solution1_score =
      (compareTwoSolutions ref a b).solution2_score ∧
    (compareTwoSolutions ref b a).solution2_score =
      (compareTwoSolutions ref a b).solution1_score ∧
    (compareTwoSolutions ref b a).winner =
      flipWinner (compareTwoSolutions ref a b).winner := by
  have e1 : (compareTwoSolutions ref a b).solution1_score =
    aggregate ref a b := rfl
  have e2 : (compareTwoSolutions ref a b).solution2_score =
    aggregate ref b a := rfl
  have e3 : (compareTwoSolutions ref b a).solution1_score =
    aggregate ref b a := rfl
  have e4 : (compareTwoSolutions ref b a).solution2_score =
    aggregate ref a b := rfl
  have ew : (compareTwoSolutions ref a b).winner =
      (if |aggregate ref a b - aggregate ref b a| ≤ epsilon then Winner.tie
       else if aggregate ref b a < aggregate ref a b then Winner.solution1
       else Winner.solution2) := rfl
  have ew2 : (compareTwoSolutions ref b a).winner =
      (if |aggregate ref b a - aggregate ref a b| ≤ epsilon then Winner.tie
       else if aggregate ref a b < aggregate ref b a then Winner.solution1
       else Winner.solution2) := rfl
  rw [e1, e2, e3, e4, ew, ew2]
  have heps : (0 : ℚ) ≤ epsilon := by norm_num [epsilon]
  refine ⟨fun h => if_pos h, fun h => ?_, fun h => ?_, rfl, rfl, ?_⟩
  · have hne : ¬|aggregate ref a b - aggregate ref b a| ≤ epsilon := by
      rw [abs_le]
      push_neg
      intro _
      linarith
    rw [if_neg hne, if_pos (by linarith)]
  · have hne : ¬|aggregate ref a b - aggregate ref b a| ≤ epsilon := by
      rw [abs_le]
      push_neg
      intro hc
      exfalso
      linarith
    rw [if_neg hne,
      if_neg (not_lt.mpr (le_of_lt (by linarith :
        aggregate ref a b < aggregate ref b a)))]
  · by_cases habs : |aggregate ref a b - aggregate ref b a| ≤ epsilon
    · rw [if_pos habs, if_pos (by rwa [abs_sub_comm])]
      rfl
    · rw [if_neg habs, if_neg (by rwa [abs_sub_comm] at habs)]
      rcases lt_trichotomy (aggregate ref a b) (aggregate ref b a) with
        hlt | heq | hgt
      · rw [if_pos hlt, if_neg (not_lt.mpr hlt.le)]
        rfl
      · exact absurd (by rw [heq, sub_self, abs_zero]; norm_num [epsilon])
          habs
      · rw [if_neg (not_lt.mpr hgt.le), if_pos hgt]
        rfl

/-- Witness for C5: comparing a solution with itself is a tie. -/
theorem compareTwoSolutions_winner_spec_witness :
    (compareTwoSolutions none miniGraph miniGraph).winner = Winner.tie := by
  apply (compareTwoSolutions_winner_spec none miniGraph miniGraph).1
  have hs : (compareTwoSolutions none miniGraph miniGraph).solution1_score =
      (compareTwoSolutions none miniGraph miniGraph).solution2_score := rfl
  rw [hs, sub_self, abs_zero]
  norm_num [epsilon]

/-- C6: `evaluateAgainstReference` succeeds exactly when the problem's
canonical CFG exists and fails with `NoReferenceError` otherwise; the UI
guard surfaces the user-correctable guidance message whenever evaluation
is requested without a reference. -/
theorem evaluateAgainstReference_requires_reference (p : ProblemRec)
    (cand : CFG) :
    ((∃ res, evaluateAgainstReference p cand = .ok res) ↔
      p.canonical_cfg.isSome = true) ∧
    (p.canonical_cfg = none →
      evaluateAgainstReference p cand = .error .noReference) ∧
    (∀ (pid : Nat) (st pc fi : String),
      handleEvaluate (some pid) false st pc fi =
        .errorToast "No reference solution available for this problem") := by
  refine ⟨?_, ?_, ?_⟩
  · cases hc : p.canonical_cfg with
    | none => simp [evaluateAgainstReference, hc]
    | some r => simp [evaluateAgainstReference, hc]
  · intro h
    simp [evaluateAgainstReference, h]
  · intro pid st pc fi
    rfl

/-- Witness for C6 at a concrete problem without a reference. -/
theorem evaluateAgainstReference_requires_reference_witness :
    evaluateAgainstReference ⟨7, none⟩ miniGraph = .error .noReference :=
  (evaluateAgainstReference_requires_reference ⟨7, none⟩ miniGraph).2.1 rfl

/-- C9: every client API evaluation helper throws
"Not authenticated. Please log in." without issuing any HTTP request when
no token is stored, and on a 401 response removes the stored token and
throws "Session expired. Please log in again.". -/
theorem api_auth_token_handling (img code file ftype ps : String)
    (s1 s2 : SolutionPayload) (resp : ApiResponse) :
    ((evaluateFlowchart img none resp).requested = none ∧
      (evaluateFlowchart img none resp).outcome =
        .error "Not authenticated. Please log in." ∧
      (evaluatePseudocode code none resp).requested = none ∧
      (evaluatePseudocode code none resp).outcome =
        .error "Not authenticated. Please log in." ∧
      (evaluateDocument file ftype none resp).requested = none ∧
      (evaluateDocument file ftype none resp).outcome =
        .error "Not authenticated. Please log in." ∧
      (compareSolutionsApi ps s1 s2 none resp).requested = none ∧
      (compareSolutionsApi ps s1 s2 none resp).outcome =
        .error "Not authenticated. Please log in.") ∧
    (∀ t : String, resp.status = 401 →
      (evaluateFlowchart img (some t) resp).tokenAfter = none ∧
      (evaluateFlowchart img (some t) resp).outcome =
        .error "Session expired. Please log in again." ∧
      (evaluatePseudocode code (some t) resp).tokenAfter = none ∧
      (evaluatePseudocode code (some t) resp).outcome =
        .error "Session expired. Please log in again." ∧
      (evaluateDocument file ftype (some t) resp).tokenAfter = none ∧
      (evaluateDocument file ftype (some t) resp).outcome =
        .error "Session expired. Please log in again." ∧
      (compareSolutionsApi ps s1 s2 (some t) resp).tokenAfter = none ∧
      (compareSolutionsApi ps s1 s2 (some t) resp).outcome =
        .error "Session expired. Please log in again.") := by
  constructor
  · exact ⟨rfl, rfl, rfl, rfl, rfl, rfl, rfl, rfl⟩
  · intro t h
    simp [evaluateFlowchart, evaluatePseudocode, evaluateDocument,
      compareSolutionsApi, h]

/-- Witness for C9 at a concrete 401 response and a missing token. -/
theorem api_auth_token_handling_witness :
    (evaluateFlowchart "img" none ⟨200, true, none, "OK"⟩).requested = none ∧
    (evaluateFlowchart "img" (some "tok")
        ⟨401, false, none, "Unauthorized"⟩).tokenAfter = none := by
  constructor
  · exact (api_auth_token_handling "img" "c" "f" "t" "p" ⟨"pseudocode", "x"⟩
      ⟨"pseudocode", "y"⟩ ⟨200, true, none, "OK"⟩).1.1
  · exact ((api_auth_token_handling "img" "c" "f" "t" "p" ⟨"pseudocode", "x"⟩
      ⟨"pseudocode", "y"⟩ ⟨401, false, none, "Unauthorized"⟩).2 "tok" rfl).1

/-- C10: the pseudocode-evaluation edge function's handler is total: an
OPTIONS request always gets the CORS preflight response with a null body,
and every other request gets HTTP 200 with the evaluation JSON or HTTP
500 with an `{"error": message}` body; every response carries the CORS
headers and no request path lets an exception escape. -/
theorem pseudocodeHandler_total (req : PseudoRequest) (w : AIWorld) :
    (req.method = "OPTIONS" → pseudocodeHandler req w = corsPreflight) ∧
    (req.method ≠ "OPTIONS" →
      ((pseudocodeHandler req w).status = 200 ∧
        (pseudocodeHandler req w).body = .resultJson) ∨
      (∃ m, (pseudocodeHandler req w).status = 500 ∧
        (pseudocodeHandler req w).body = .errorJson m)) ∧
    (pseudocodeHandler req w).cors = true := by
  refine ⟨?_, ?_, ?_⟩
  · intro h
    simp [pseudocodeHandler, h]
  · intro h
    have hb : (req.method == "OPTIONS") = false := by
      simpa using h
    unfold pseudocodeHandler
    rw [hb]
    simp only [Bool.false_eq_true, if_false]
    cases hp : evalPipeline req w with
    | ok v => exact Or.inl ⟨rfl, rfl⟩
    | error msg => exact Or.inr ⟨msg, rfl, rfl⟩
  · unfold pseudocodeHandler
    by_cases h : (req.method == "OPTIONS") = true
    · rw [h]
      rfl
    · rw [Bool.not_eq_true] at h
      rw [h]
      simp only [Bool.false_eq_true, if_false]
      cases evalPipeline req w <;> rfl

/-- Witness for C10 at a concrete OPTIONS request and a concrete POST
request with a missing API key. -/
theorem pseudocodeHandler_total_witness :
    pseudocodeHandler ⟨"OPTIONS", .ok "x"⟩ ⟨none, .error "e"⟩ =
      corsPreflight ∧
    (((pseudocodeHandler ⟨"POST", .ok "x"⟩ ⟨none, .error "e"⟩).status = 200 ∧
      (pseudocodeHandler ⟨"POST", .ok "x"⟩
          ⟨none, .error "e"⟩).body = .resultJson) ∨
    (∃ m, (pseudocodeHandler ⟨"POST", .ok "x"⟩ ⟨none, .error "e"⟩).status =
        500 ∧
      (pseudocodeHandler ⟨"POST", .ok "x"⟩
          ⟨none, .error "e"⟩).body = .errorJson m)) := by
  constructor
  · exact (pseudocodeHandler_total ⟨"OPTIONS", .ok "x"⟩ ⟨none, .error "e"⟩).1
      rfl
  · exact (pseudocodeHandler_total ⟨"POST", .ok "x"⟩ ⟨none, .error "e"⟩).2.1
      (by decide)

end RubricFlow
